import Mathlib

/-!
Verification of the fixed-spread market-making bot (mmbot).

The repository holds two variants of the same bot:
  - src/GCBMMbot-MEXC-GCBEX/mmbot.py : header-based request signing
    (sign over timestamp ++ upgraded method ++ path ++ body), and
  - src/mmbot.py : sorted-query-string request signing
    (sign over the request parameters joined as key=value pairs).

This file gives a shallow embedding of the program.  Python floats are
embedded as rationals, the remote HTTP responses as explicit response
shapes, and hashlib/hmac as a full executable HMAC-SHA256 over byte
lists (Nat values below 256, 32-bit words as Nat reduced mod 2 ^ 32).
-/

namespace Crypto

/-- Truncation of a natural number to a 32-bit word. -/
def w32 (n : Nat) : Nat := n % 4294967296

/-- Rotate a 32-bit word right by n bits. -/
def rotr (n x : Nat) : Nat := w32 ((x >>> n) ||| (x <<< (32 - n)))

def smallSigma0 (x : Nat) : Nat := (rotr 7 x) ^^^ (rotr 18 x) ^^^ (x >>> 3)

def smallSigma1 (x : Nat) : Nat := (rotr 17 x) ^^^ (rotr 19 x) ^^^ (x >>> 10)

def bigSigma0 (x : Nat) : Nat := (rotr 2 x) ^^^ (rotr 13 x) ^^^ (rotr 22 x)

def bigSigma1 (x : Nat) : Nat := (rotr 6 x) ^^^ (rotr 11 x) ^^^ (rotr 25 x)

def ch (x y z : Nat) : Nat := (x &&& y) ^^^ ((x ^^^ 0xffffffff) &&& z)

def maj (x y z : Nat) : Nat := (x &&& y) ^^^ (x &&& z) ^^^ (y &&& z)

/-- The 64 SHA-256 round constants. -/
def K : List Nat :=
  [1116352408, 1899447441, 3049323471, 3921009573, 961987163, 1508970993,
   2453635748, 2870763221, 3624381080, 310598401, 607225278, 1426881987,
   1925078388, 2162078206, 2614888103, 3248222580, 3835390401, 4022224774,
   264347078, 604807628, 770255983, 1249150122, 1555081692, 1996064986,
   2554220882, 2821834349, 2952996808, 3210313671, 3336571891, 3584528711,
   113926993, 338241895, 666307205, 773529912, 1294757372, 1396182291,
   1695183700, 1986661051, 2177026350, 2456956037, 2730485921, 2820302411,
   3259730800, 3345764771, 3516065817, 3600352804, 4094571909, 275423344,
   430227734, 506948616, 659060556, 883997877, 958139571, 1322822218,
   1537002063, 1747873779, 1955562222, 2024104815, 2227730452, 2361852424,
   2428436474, 2756734187, 3204031479, 3329325298]

/-- The SHA-256 initial hash value. -/
def H0 : List Nat :=
  [1779033703, 3144134277, 1013904242, 2773480762,
   1359893119, 2600822924, 528734635, 1541459225]

/-- Extend a 16-word block to the 64-word message schedule. -/
def extendW : Nat → Array Nat → Array Nat
  | 0, ws => ws
  | n + 1, ws =>
    extendW n (ws.push (w32 (smallSigma1 (ws.getD (ws.size - 2) 0) + ws.getD (ws.size - 7) 0 +
      smallSigma0 (ws.getD (ws.size - 15) 0) + ws.getD (ws.size - 16) 0)))

/-- The eight 32-bit working variables of the SHA-256 compression loop. -/
structure SHState where
  a : Nat
  b : Nat
  c : Nat
  d : Nat
  e : Nat
  f : Nat
  g : Nat
  h : Nat

/-- One round of the SHA-256 compression function. -/
def round (st : SHState) (ki wi : Nat) : SHState :=
  let t1 := w32 (st.h + bigSigma1 st.e + ch st.e st.f st.g + ki + wi)
  let t2 := w32 (bigSigma0 st.a + maj st.a st.b st.c)
  ⟨w32 (t1 + t2), st.a, st.b, st.c, w32 (st.d + t1), st.e, st.f, st.g⟩

/-- Compress one 16-word block into the running hash value. -/
def compress (hs : List Nat) (block : List Nat) : List Nat :=
  let ws := extendW 48 block.toArray
  let st0 : SHState := ⟨hs.getD 0 0, hs.getD 1 0, hs.getD 2 0, hs.getD 3 0,
                        hs.getD 4 0, hs.getD 5 0, hs.getD 6 0, hs.getD 7 0⟩
  let stF := (K.zip ws.toList).foldl (fun st kw => round st kw.1 kw.2) st0
  [w32 (hs.getD 0 0 + stF.a), w32 (hs.getD 1 0 + stF.b), w32 (hs.getD 2 0 + stF.c),
   w32 (hs.getD 3 0 + stF.d), w32 (hs.getD 4 0 + stF.e), w32 (hs.getD 5 0 + stF.f),
   w32 (hs.getD 6 0 + stF.g), w32 (hs.getD 7 0 + stF.h)]

/-- The 8-byte big-endian encoding of a length value. -/
def bigEndian8 (n : Nat) : List Nat :=
  (List.range 8).map (fun i => (n >>> (8 * (7 - i))) % 256)

/-- SHA-256 message padding: a 0x80 byte, zeros, and the 64-bit bit length. -/
def padMsg (msg : List Nat) : List Nat :=
  let L := msg.length
  let z := (120 - (L + 1) % 64) % 64
  msg ++ [0x80] ++ List.replicate z 0 ++ bigEndian8 (8 * L)

/-- Group bytes into big-endian 32-bit words. -/
def bytesToWords : List Nat → List Nat
  | b0 :: b1 :: b2 :: b3 :: rest => (((b0 * 256 + b1) * 256 + b2) * 256 + b3) :: bytesToWords rest
  | _ => []

def toBlocksAux : Nat → List Nat → List (List Nat)
  | 0, _ => []
  | _, [] => []
  | fuel + 1, w :: ws => ((w :: ws).take 16) :: toBlocksAux fuel ((w :: ws).drop 16)

/-- Group a word list into 16-word blocks. -/
def toBlocks (l : List Nat) : List (List Nat) := toBlocksAux l.length l

/-- SHA-256 of a byte list, as a 32-byte digest. -/
def sha256Bytes (msg : List Nat) : List Nat :=
  let blocks := toBlocks (bytesToWords (padMsg msg))
  let hFinal := blocks.foldl compress H0
  (hFinal.map (fun w => (List.range 4).map fun i => (w >>> (8 * (3 - i))) % 256)).flatten

def hexChar (n : Nat) : Char :=
  if n < 10 then Char.ofNat (48 + n) else Char.ofNat (87 + n)

/-- Lowercase hexadecimal rendering of a byte list. -/
def hexOfBytes (bs : List Nat) : String :=
  ⟨(bs.map (fun b => [hexChar (b / 16), hexChar (b % 16)])).flatten⟩

/-- HMAC-SHA256 (RFC 2104) over byte lists, with a 64-byte block size. -/
def hmacSha256 (key msg : List Nat) : List Nat :=
  let k1 := if key.length > 64 then sha256Bytes key else key
  let kPadded := k1 ++ List.replicate (64 - k1.length) 0
  let inner := sha256Bytes ((kPadded.map (fun b => b ^^^ 0x36)) ++ msg)
  sha256Bytes ((kPadded.map (fun b => b ^^^ 0x5c)) ++ inner)

/-- UTF-8 bytes of a string, as Python str.encode produces. -/
def strBytes (s : String) : List Nat := s.toUTF8.toList.map (fun b => b.toNat)

/-- Embeds hmac.new(secret.encode(), message.encode(), hashlib.sha256).hexdigest(). -/
def hmacSha256Hex (secret message : String) : String :=
  hexOfBytes (hmacSha256 (strBytes secret) (strBytes message))

end Crypto

/-!
String ordering as Python compares strings: lexicographically by code point.
Defined by direct structural recursion so that concrete instances reduce
inside the kernel.
-/

/-- Lexicographic less-or-equal on character lists, by code point. -/
def lexLe : List Char → List Char → Bool
  | [], _ => true
  | _ :: _, [] => false
  | a :: as, b :: bs => if a < b then true else if b < a then false else lexLe as bs

/-- The string order used by sorted() in the Python source. -/
def strLe (a b : String) : Prop := lexLe a.data b.data = true

instance : DecidableRel strLe := fun a b => by unfold strLe; infer_instance

theorem lexLe_total : ∀ a b : List Char, lexLe a b = true ∨ lexLe b a = true := by
  intro a
  induction a with
  | nil => intro b; left; rfl
  | cons x xs ih =>
    intro b
    cases b with
    | nil => right; rfl
    | cons y ys =>
      rcases lt_trichotomy x y with h | h | h
      · left; simp [lexLe, h]
      · subst h
        rcases ih ys with h2 | h2
        · left; simp [lexLe, h2]
        · right; simp [lexLe, h2]
      · right; simp [lexLe, h]

theorem lexLe_trans :
    ∀ a b c : List Char, lexLe a b = true → lexLe b c = true → lexLe a c = true := by
  intro a
  induction a with
  | nil => intro b c _ _; rfl
  | cons x xs ih =>
    intro b c hab hbc
    cases b with
    | nil => simp [lexLe] at hab
    | cons y ys =>
      cases c with
      | nil => simp [lexLe] at hbc
      | cons z zs =>
        rcases lt_trichotomy x y with hxy | hxy | hxy
        · rcases lt_trichotomy y z with hyz | hyz | hyz
          · simp [lexLe, lt_trans hxy hyz]
          · subst hyz; simp [lexLe, hxy]
          · simp [lexLe, asymm hyz, hyz] at hbc
        · subst hxy
          rcases lt_trichotomy x z with hxz | hxz | hxz
          · simp [lexLe, hxz]
          · subst hxz
            simp only [lexLe, lt_irrefl, if_false] at hab hbc ⊢
            exact ih ys zs hab hbc
          · simp [lexLe, asymm hxz, hxz] at hbc
        · simp [lexLe, asymm hxy, hxy] at hab

theorem lexLe_antisymm :
    ∀ a b : List Char, lexLe a b = true → lexLe b a = true → a = b := by
  intro a
  induction a with
  | nil =>
    intro b _ hba
    cases b with
    | nil => rfl
    | cons y ys => simp [lexLe] at hba
  | cons x xs ih =>
    intro b hab hba
    cases b with
    | nil => simp [lexLe] at hab
    | cons y ys =>
      rcases lt_trichotomy x y with h | h | h
      · simp [lexLe, asymm h, h] at hba
      · subst h
        simp only [lexLe, lt_irrefl, if_false] at hab hba
        rw [ih ys hab hba]
      · simp [lexLe, asymm h, h] at hab

instance : IsTotal String strLe := ⟨fun a b => lexLe_total a.data b.data⟩

instance : IsTrans String strLe := ⟨fun a b c => lexLe_trans a.data b.data c.data⟩

instance : IsAntisymm String strLe :=
  ⟨fun a b h1 h2 => String.ext (lexLe_antisymm a.data b.data h1 h2)⟩

/-- ASCII uppercasing of a string, modelling the Python method upper() as
applied to the HTTP method names appearing in the source. -/
def upper (s : String) : String := ⟨s.data.map Char.toUpper⟩

namespace Gcbex

/-!
Embedding of src/GCBMMbot-MEXC-GCBEX/mmbot.py.  Module-level configuration
globals (API_SECRET, SYMBOL, ...) become explicit parameters.
-/

/-- The canonical message built inside sign (line 28):
timestamp, upper-cased method, request path, serialized body, concatenated. -/
def signMessage (timestamp method request_path body_json : String) : String :=
  timestamp ++ upper method ++ request_path ++ body_json

/-- Embeds sign (lines 27-30): hex HMAC-SHA256 of the canonical message,
keyed by the API secret. -/
def sign (API_SECRET timestamp method request_path body_json : String) : String :=
  Crypto.hmacSha256Hex API_SECRET (signMessage timestamp method request_path body_json)

/-- Embeds the open-orders listing request of cancel_all_orders
(lines 124-137): the URL carries the symbol query string, while the
signature covers only timestamp, GET and the bare path. -/
def listing_request (API_SECRET timestamp API_BASE SYMBOL : String) : String × String :=
  let request_path := "/sapi/v2/openOrders"
  let query := "symbol=" ++ SYMBOL
  (API_BASE ++ request_path ++ "?" ++ query, sign API_SECRET timestamp "GET" request_path "")

end Gcbex

namespace Mexc

/-!
Embedding of src/mmbot.py (the sorted-query-string variant).  A Python dict
of request parameters, with its values already stringified, is embedded as
an association list whose keys are pairwise distinct.
-/

/-- First value stored under a key, as a Python dict lookup params[k]. -/
def lookupD (params : List (String × String)) (k : String) : String :=
  match params.find? (fun kv => kv.1 == k) with
  | some kv => kv.2
  | none => ""

/-- The canonical query built inside sign (line 30):
keys sorted, then joined as key=value pairs with an ampersand. -/
def query (params : List (String × String)) : String :=
  String.intercalate "&"
    ((List.insertionSort strLe (params.map Prod.fst)).map (fun k => k ++ "=" ++ lookupD params k))

/-- Embeds sign (lines 29-31): hex HMAC-SHA256 of the sorted query string,
keyed by the API secret. -/
def sign (API_SECRET : String) (params : List (String × String)) : String :=
  Crypto.hmacSha256Hex API_SECRET (query params)

end Mexc

/-- Comparison of request parameters by key, under the string order. -/
def keyLe (a b : String × String) : Prop := strLe a.1 b.1

instance : DecidableRel keyLe := fun a b => by unfold keyLe; infer_instance

instance : IsTotal (String × String) keyLe := ⟨fun a b => lexLe_total a.1.data b.1.data⟩

instance : IsTrans (String × String) keyLe :=
  ⟨fun a b c => lexLe_trans a.1.data b.1.data c.1.data⟩

/-- Modelled from the spec wording of the parameter-encoded variant:
the request parameters sorted lexicographically by key and joined as
key=value pairs with an ampersand separator. -/
def specSortedQuery (params : List (String × String)) : String :=
  String.intercalate "&"
    ((List.insertionSort keyLe params).map (fun kv => kv.1 ++ "=" ++ kv.2))

/-!
The quote engine, embedded from the main loop (GCBEX lines 184-186, root
lines 153-155).  Python floats become rationals.
-/

/-- spread = TARGET_PRICE * SPREAD_PERCENT. -/
def spread (TARGET_PRICE SPREAD_PERCENT : ℚ) : ℚ := TARGET_PRICE * SPREAD_PERCENT

/-- bid_price = max(TARGET_PRICE - spread, PRICE_FLOOR). -/
def bid_price (TARGET_PRICE SPREAD_PERCENT PRICE_FLOOR : ℚ) : ℚ :=
  max (TARGET_PRICE - spread TARGET_PRICE SPREAD_PERCENT) PRICE_FLOOR

/-- ask_price = min(TARGET_PRICE + spread, PRICE_CEIL). -/
def ask_price (TARGET_PRICE SPREAD_PERCENT PRICE_CEIL : ℚ) : ℚ :=
  min (TARGET_PRICE + spread TARGET_PRICE SPREAD_PERCENT) PRICE_CEIL

/-!
Remote responses.  Each fallible HTTP interaction is embedded as an explicit
response shape: a raised transport exception, an unexpected JSON shape, or
the well-formed payload the code expects.
-/

/-- One entry of the balances array of the account endpoint. -/
structure BalanceItem where
  asset : String
  free : ℚ
deriving DecidableEq

/-- Outcome of the account request made by get_balance: a raised transport
or parse exception, a JSON body without a balances field, or a balances
list. -/
inductive AccountResponse
  | failure
  | missingBalances
  | balances (items : List BalanceItem)

/-- Embeds get_balance (GCBEX lines 62-86, root lines 65-85): scan the
balances list for the asset and return its free amount; every failure path
falls through to 0.0. -/
def get_balance (asset : String) (resp : AccountResponse) : ℚ :=
  match resp with
  | .balances items =>
    match items.find? (fun item => item.asset == asset) with
    | some item => item.free
    | none => 0
  | .failure => 0
  | .missingBalances => 0

/-- Outcome of the ticker request made by get_price: a raised transport or
parse exception, a JSON body without the expected price field, or a parsed
price. -/
inductive TickerResponse
  | failure
  | missingField
  | price (p : ℚ)

/-- Embeds get_price (GCBEX lines 45-60, root lines 48-62): return the
parsed remote price when the expected field is present, and the configured
TARGET_PRICE on every failure path. -/
def get_price (TARGET_PRICE : ℚ) (resp : TickerResponse) : ℚ :=
  match resp with
  | .price p => p
  | .failure => TARGET_PRICE
  | .missingField => TARGET_PRICE

/-!
The cancel-all-orders phase (GCBEX lines 121-176, root lines 112-144).
The whole function body sits inside one try block, so a raised exception
while cancelling one order leaves the function through the handler; an
error-shaped cancel response is only logged and the loop continues.
-/

/-- Outcome of one individual cancel request: a CANCELED response, an
error-shaped response (logged, loop continues), or a raised transport
exception (outer handler, phase ends). -/
inductive CancelOutcome
  | canceled
  | errorShaped
  | raises
deriving DecidableEq

/-- Shape of the open-orders listing response: an error dict carrying a
code field, some other non-list JSON, or a list of order ids. -/
inductive OpenOrdersResponse
  | errorDict
  | nonList
  | orders (os : List Nat)

/-- The per-order cancel loop, returning the order ids whose cancel request
was actually issued.  A raised exception during the cancel of one order
leaves the loop; any response shape lets it continue. -/
def cancelLoop (outcome : Nat → CancelOutcome) : List Nat → List Nat
  | [] => []
  | o :: rest =>
    match outcome o with
    | .raises => [o]
    | .canceled => o :: cancelLoop outcome rest
    | .errorShaped => o :: cancelLoop outcome rest

/-- Embeds cancel_all_orders as the list of order ids whose individual
cancel request was issued: an error-shaped or non-list listing response
aborts the phase before any cancel. -/
def cancel_all_orders (outcome : Nat → CancelOutcome) (resp : OpenOrdersResponse) : List Nat :=
  match resp with
  | .errorDict => []
  | .nonList => []
  | .orders os => cancelLoop outcome os

/-!
The order-evaluation phase of one cycle (GCBEX lines 202-219, root lines
171-188), as the list of outward actions it performs.
-/

/-- Order side, BUY or SELL. -/
inductive Side
  | BUY
  | SELL
deriving DecidableEq

/-- An outward action of the evaluation phase: a place_order call, or one
insufficient-funds alert message (logged and sent once per skipped side). -/
inductive CycleEvent
  | placed (side : Side) (price : ℚ)
  | insufficientAlert (asset : String)
deriving DecidableEq

/-- Embeds the BUY evaluation: required_quote = bid_price * ORDER_SIZE; a
covered balance places the order, otherwise one alert fires and the side is
skipped. -/
def evaluate_buy (quote_balance bid ORDER_SIZE : ℚ) (quote_asset : String) : List CycleEvent :=
  let required_quote := bid * ORDER_SIZE
  if quote_balance ≥ required_quote then [CycleEvent.placed Side.BUY bid]
  else [CycleEvent.insufficientAlert quote_asset]

/-- Embeds the SELL evaluation: required_base = ORDER_SIZE; a covered
balance places the order, otherwise one alert fires and the side is
skipped. -/
def evaluate_sell (base_balance ask ORDER_SIZE : ℚ) (base_asset : String) : List CycleEvent :=
  let required_base := ORDER_SIZE
  if base_balance ≥ required_base then [CycleEvent.placed Side.SELL ask]
  else [CycleEvent.insufficientAlert base_asset]

/-- Number of insufficient-funds alerts among the events of a phase. -/
def countAlerts (evts : List CycleEvent) : Nat :=
  (evts.filter (fun e =>
    match e with
    | .insufficientAlert _ => true
    | .placed _ _ => false)).length

/-!
The outer loop of main (GCBEX lines 178-224, root lines 147-193): while
True around a try block whose handler logs, alerts and sleeps.  The body of
one cycle is abstracted into its outcome: normal completion or a raised
exception of an abstract error type.
-/

/-- State of the process running main: still looping at some cycle index,
or exited. -/
inductive LoopState
  | running (cycle : Nat)
  | exited
deriving DecidableEq

/-- An observable effect of the exception handler of main. -/
inductive LoopEvent (E : Type)
  | logError (e : E)
  | telegramAlert (e : E)
  | sleep

/-- One iteration of the while-True loop of main: a raised exception is
caught by the handler, which logs the error, sends one telegram alert and
sleeps; either way the loop proceeds to the next cycle. -/
def main_step (E : Type) (s : LoopState) (outcome : Except E Unit) : LoopState × List (LoopEvent E) :=
  match s with
  | .exited => (.exited, [])
  | .running n =>
    match outcome with
    | .ok _ => (.running (n + 1), [])
    | .error e => (.running (n + 1), [.logError e, .telegramAlert e, .sleep])

/-- The state of main after n iterations, given the outcome of every cycle
body. -/
def main_iter (E : Type) (outcomes : Nat → Except E Unit) : Nat → LoopState
  | 0 => .running 0
  | n + 1 => (main_step E (main_iter E outcomes n) (outcomes n)).1

/-!
Helper lemmas.
-/

theorem str_append_right_cancel {a b c : String} (h : a ++ c = b ++ c) : a = b := by
  apply String.ext
  have hd := congrArg String.data h
  simp only [String.data_append] at hd
  exact List.append_cancel_right hd

theorem str_append_left_cancel {a b c : String} (h : a ++ b = a ++ c) : b = c := by
  apply String.ext
  have hd := congrArg String.data h
  simp only [String.data_append] at hd
  exact List.append_cancel_left hd

theorem sorted_keys_eq (params : List (String × String)) :
    (List.insertionSort keyLe params).map Prod.fst =
      List.insertionSort strLe (params.map Prod.fst) := by
  have hperm : ((List.insertionSort keyLe params).map Prod.fst).Perm
      (List.insertionSort strLe (params.map Prod.fst)) :=
    ((List.perm_insertionSort keyLe params).map Prod.fst).trans
      (List.perm_insertionSort strLe (params.map Prod.fst)).symm
  have hs1 : List.Sorted strLe ((List.insertionSort keyLe params).map Prod.fst) :=
    List.Pairwise.map Prod.fst (fun a b h => h) (List.sorted_insertionSort keyLe params)
  have hs2 : List.Sorted strLe (List.insertionSort strLe (params.map Prod.fst)) :=
    List.sorted_insertionSort strLe (params.map Prod.fst)
  exact List.eq_of_perm_of_sorted hperm hs1 hs2

theorem find?_key_of_nodup (params : List (String × String)) (kv : String × String)
    (hnd : (params.map Prod.fst).Nodup) (hmem : kv ∈ params) :
    params.find? (fun p => p.1 == kv.1) = some kv := by
  induction params with
  | nil => cases hmem
  | cons hd tl ih =>
    rcases List.mem_cons.mp hmem with rfl | hmem2
    · simp [List.find?_cons]
    · have hne : hd.1 ≠ kv.1 := by
        intro he
        have hkmem : kv.1 ∈ tl.map Prod.fst := List.mem_map_of_mem Prod.fst hmem2
        rw [List.map_cons, List.nodup_cons] at hnd
        exact hnd.1 (he ▸ hkmem)
      rw [List.find?_cons]
      have hbeq : (hd.1 == kv.1) = false := beq_eq_false_iff_ne.mpr hne
      rw [hbeq]
      exact ih (by rw [List.map_cons, List.nodup_cons] at hnd; exact hnd.2) hmem2

theorem query_eq_specSortedQuery (params : List (String × String))
    (hnd : (params.map Prod.fst).Nodup) :
    Mexc.query params = specSortedQuery params := by
  unfold Mexc.query specSortedQuery
  rw [← sorted_keys_eq, List.map_map]
  congr 1
  apply List.map_congr_left
  intro kv hkv
  have hmem : kv ∈ params := (List.perm_insertionSort keyLe params).subset hkv
  have hfind := find?_key_of_nodup params kv hnd hmem
  simp only [Function.comp]
  unfold Mexc.lookupD
  rw [hfind]

theorem main_iter_running (E : Type) (outcomes : Nat → Except E Unit) :
    ∀ n : Nat, main_iter E outcomes n = LoopState.running n := by
  intro n
  induction n with
  | zero => rfl
  | succ k ih =>
    show (main_step E (main_iter E outcomes k) (outcomes k)).1 = LoopState.running (k + 1)
    rw [ih]
    cases outcomes k with
    | ok u => rfl
    | error e => rfl

theorem cancelLoop_no_raise (outcome : Nat → CancelOutcome) :
    ∀ os : List Nat, (∀ o ∈ os, outcome o ≠ CancelOutcome.raises) →
      cancelLoop outcome os = os := by
  intro os
  induction os with
  | nil => intro _; rfl
  | cons o rest ih =>
    intro hno
    have ho := hno o (List.mem_cons_self o rest)
    unfold cancelLoop
    cases hc : outcome o with
    | raises => exact absurd hc ho
    | canceled => rw [ih (fun p hp => hno p (List.mem_cons_of_mem o hp))]
    | errorShaped => rw [ih (fun p hp => hno p (List.mem_cons_of_mem o hp))]

theorem cancelLoop_abort (outcome : Nat → CancelOutcome) :
    ∀ (pre : List Nat) (o : Nat) (post : List Nat),
      (∀ p ∈ pre, outcome p ≠ CancelOutcome.raises) → outcome o = CancelOutcome.raises →
      cancelLoop outcome (pre ++ o :: post) = pre ++ [o] := by
  intro pre
  induction pre with
  | nil =>
    intro o post _ ho
    rw [List.nil_append, List.nil_append]
    unfold cancelLoop
    rw [ho]
  | cons q qs ih =>
    intro o post hpre ho
    have hq := hpre q (List.mem_cons_self q qs)
    rw [List.cons_append]
    unfold cancelLoop
    cases hc : outcome q with
    | raises => exact absurd hc hq
    | canceled => rw [ih o post (fun p hp => hpre p (List.mem_cons_of_mem q hp)) ho]; rfl
    | errorShaped => rw [ih o post (fun p hp => hpre p (List.mem_cons_of_mem q hp)) ho]; rfl

/-!
Claim theorems.
-/

/-- C1 (amended): the quote engine always clamps to the floor from below
and to the ceiling from above; the full chain floor ≤ bid ≤ ask ≤ ceil
additionally needs the target price to lie inside the band and the spread
to be nonnegative. -/
theorem quote_engine_bounds (t sf fl ce : ℚ) :
    (fl ≤ bid_price t sf fl ∧ ask_price t sf ce ≤ ce) ∧
    (fl ≤ t → t ≤ ce → 0 ≤ spread t sf →
      fl ≤ bid_price t sf fl ∧ bid_price t sf fl ≤ ask_price t sf ce ∧
        ask_price t sf ce ≤ ce) := by
  constructor
  · exact ⟨le_max_right _ _, min_le_right _ _⟩
  · intro hf hc hs
    refine ⟨le_max_right _ _, ?_, min_le_right _ _⟩
    unfold bid_price ask_price
    apply max_le
    · apply le_min
      · linarith
      · linarith
    · apply le_min
      · linarith
      · linarith

/-- C1 witness: the amended bound chain at target 100, spread fraction
1/100, floor 90, ceiling 110. -/
theorem quote_engine_bounds_witness :
    (90 : ℚ) ≤ bid_price 100 (1/100) 90 ∧
    bid_price 100 (1/100) 90 ≤ ask_price 100 (1/100) 110 ∧
    ask_price 100 (1/100) 110 ≤ 110 :=
  (quote_engine_bounds 100 (1/100) 90 110).2 (by norm_num) (by norm_num)
    (by unfold spread; norm_num)

/-- C1 counterexample: with target price 1000 outside the band [90, 110]
and spread fraction 0, the bid is 1000 and the ask is 110, so the claimed
invariant floor ≤ bid ≤ ask ≤ ceil fails although floor ≤ ceil holds. -/
theorem quote_engine_bounds_cex :
    (90 : ℚ) ≤ 110 ∧ bid_price 1000 0 90 = 1000 ∧ ask_price 1000 0 110 = 110 ∧
    ¬ bid_price 1000 0 90 ≤ ask_price 1000 0 110 := by
  have hb : bid_price 1000 0 90 = 1000 := by
    unfold bid_price spread
    rw [max_eq_left (by norm_num : (90 : ℚ) ≤ 1000 - 1000 * 0)]
    norm_num
  have ha : ask_price 1000 0 110 = 110 := by
    unfold ask_price spread
    rw [min_eq_right (by norm_num : (110 : ℚ) ≤ 1000 + 1000 * 0)]
  refine ⟨by norm_num, hb, ha, ?_⟩
  rw [hb, ha]
  norm_num

/-- C7: the quote engine computes exactly spread = target times fraction,
bid = max(target - spread, floor), ask = min(target + spread, ceil); at
target 100 with fraction 1/100 and band [90, 110] this gives bid 99 and
ask 101, and with fraction 2/10 the raw values clamp to 90 and 110. -/
theorem quote_engine_formulas :
    (∀ t sf fl ce : ℚ,
        spread t sf = t * sf ∧
        bid_price t sf fl = max (t - t * sf) fl ∧
        ask_price t sf ce = min (t + t * sf) ce) ∧
    bid_price 100 (1/100) 90 = 99 ∧ ask_price 100 (1/100) 110 = 101 ∧
    bid_price 100 (2/10) 90 = 90 ∧ ask_price 100 (2/10) 110 = 110 := by
  refine ⟨fun t sf fl ce => ⟨rfl, rfl, rfl⟩, ?_, ?_, ?_, ?_⟩
  · unfold bid_price spread
    rw [max_eq_left (by norm_num : (90 : ℚ) ≤ 100 - 100 * (1/100))]
    norm_num
  · unfold ask_price spread
    rw [min_eq_left (by norm_num : (100 : ℚ) + 100 * (1/100) ≤ 110)]
    norm_num
  · unfold bid_price spread
    rw [max_eq_right (by norm_num : (100 : ℚ) - 100 * (2/10) ≤ 90)]
  · unfold ask_price spread
    rw [min_eq_right (by norm_num : (110 : ℚ) ≤ 100 + 100 * (2/10))]

/-- C5: get_price returns the configured target price unchanged on a
raised transport error or a response missing the expected price field, and
returns the parsed remote price exactly when that field is present. -/
theorem get_price_fallback (TARGET_PRICE p : ℚ) :
    get_price TARGET_PRICE TickerResponse.failure = TARGET_PRICE ∧
    get_price TARGET_PRICE TickerResponse.missingField = TARGET_PRICE ∧
    get_price TARGET_PRICE (TickerResponse.price p) = p :=
  ⟨rfl, rfl, rfl⟩

/-- C4: get_balance returns exactly 0 on a raised remote failure, on a
response without a balances field, and when the requested asset is absent
from the balances list; when the asset is found it returns the free amount
of the first matching entry. -/
theorem get_balance_fail_safe :
    (∀ asset : String,
        get_balance asset AccountResponse.failure = 0 ∧
        get_balance asset AccountResponse.missingBalances = 0) ∧
    (∀ (asset : String) (items : List BalanceItem),
        (∀ it ∈ items, it.asset ≠ asset) →
        get_balance asset (AccountResponse.balances items) = 0) ∧
    (∀ (asset : String) (items : List BalanceItem) (it : BalanceItem),
        items.find? (fun i => i.asset == asset) = some it →
        get_balance asset (AccountResponse.balances items) = it.free) := by
  refine ⟨fun asset => ⟨rfl, rfl⟩, ?_, ?_⟩
  · intro asset items habs
    have hnone : items.find? (fun item => item.asset == asset) = none := by
      rw [List.find?_eq_none]
      intro x hx
      simp [habs x hx]
    simp only [get_balance]
    rw [hnone]
  · intro asset items it hfind
    simp only [get_balance]
    rw [hfind]

/-- C4 witness: a concrete balances list holding only BTC yields 0 for
ETH and the stored free amount for BTC. -/
theorem get_balance_fail_safe_witness :
    get_balance "ETH" (AccountResponse.balances [BalanceItem.mk "BTC" 5]) = 0 ∧
    get_balance "BTC" (AccountResponse.balances [BalanceItem.mk "BTC" 5]) = 5 := by
  constructor
  · exact get_balance_fail_safe.2.1 "ETH" [BalanceItem.mk "BTC" 5]
      (by intro it hit; rcases List.mem_singleton.mp hit with rfl; decide)
  · exact get_balance_fail_safe.2.2 "BTC" [BalanceItem.mk "BTC" 5] (BalanceItem.mk "BTC" 5) rfl

/-- C6: a BUY is placed exactly when the quote balance covers
bid times order size and a SELL exactly when the base balance covers the
order size; a skipped side emits exactly one insufficient-funds alert, and
with quote balance 50, bid 99, size 1 the BUY is skipped with one alert. -/
theorem evaluate_orders_gate :
    (∀ (qb bid sz : ℚ) (qa : String),
        (evaluate_buy qb bid sz qa = [CycleEvent.placed Side.BUY bid] ↔ qb ≥ bid * sz) ∧
        (qb ≥ bid * sz → countAlerts (evaluate_buy qb bid sz qa) = 0) ∧
        (¬ qb ≥ bid * sz →
          evaluate_buy qb bid sz qa = [CycleEvent.insufficientAlert qa] ∧
          countAlerts (evaluate_buy qb bid sz qa) = 1)) ∧
    (∀ (bb ask sz : ℚ) (ba : String),
        (evaluate_sell bb ask sz ba = [CycleEvent.placed Side.SELL ask] ↔ bb ≥ sz) ∧
        (bb ≥ sz → countAlerts (evaluate_sell bb ask sz ba) = 0) ∧
        (¬ bb ≥ sz →
          evaluate_sell bb ask sz ba = [CycleEvent.insufficientAlert ba] ∧
          countAlerts (evaluate_sell bb ask sz ba) = 1)) ∧
    (evaluate_buy 50 99 1 "USDT" = [CycleEvent.insufficientAlert "USDT"] ∧
      countAlerts (evaluate_buy 50 99 1 "USDT") = 1) := by
  have hbuy : ∀ (qb bid sz : ℚ) (qa : String), ¬ qb ≥ bid * sz →
      evaluate_buy qb bid sz qa = [CycleEvent.insufficientAlert qa] := by
    intro qb bid sz qa hn
    simp only [evaluate_buy]
    rw [if_neg hn]
  refine ⟨?_, ?_, ?_⟩
  · intro qb bid sz qa
    simp only [evaluate_buy]
    split_ifs with h
    · exact ⟨by simp [h], fun _ => rfl, fun hn => absurd h hn⟩
    · exact ⟨by simp [h], fun hy => absurd hy h, fun _ => ⟨rfl, rfl⟩⟩
  · intro bb ask sz ba
    simp only [evaluate_sell]
    split_ifs with h
    · exact ⟨by simp [h], fun _ => rfl, fun hn => absurd h hn⟩
    · exact ⟨by simp [h], fun hy => absurd hy h, fun _ => ⟨rfl, rfl⟩⟩
  · have h50 : ¬ (50 : ℚ) ≥ 99 * 1 := by norm_num
    have he := hbuy 50 99 1 "USDT" h50
    exact ⟨he, by rw [he]; rfl⟩

/-- C6 witness: a SELL side with base balance 0 and order size 1 is
skipped with exactly one insufficient-funds alert. -/
theorem evaluate_orders_gate_witness :
    evaluate_sell 0 101 1 "ETH" = [CycleEvent.insufficientAlert "ETH"] ∧
    countAlerts (evaluate_sell 0 101 1 "ETH") = 1 :=
  (evaluate_orders_gate.2.1 0 101 1 "ETH").2.2 (by norm_num)

/-- C2 (amended): when no individual cancel raises, every listed order is
attempted, and an error-shaped cancel response never blocks the following
orders; but a raised transport error while cancelling order k aborts the
loop, so the orders after k are not attempted. -/
theorem cancel_loop_continue (outcome : Nat → CancelOutcome)
    (os pre post : List Nat) (o : Nat) :
    ((∀ p ∈ os, outcome p ≠ CancelOutcome.raises) →
      cancel_all_orders outcome (OpenOrdersResponse.orders os) = os) ∧
    ((∀ p ∈ pre, outcome p ≠ CancelOutcome.raises) → outcome o = CancelOutcome.raises →
      cancel_all_orders outcome (OpenOrdersResponse.orders (pre ++ o :: post)) = pre ++ [o]) := by
  constructor
  · intro h
    exact cancelLoop_no_raise outcome os h
  · intro hpre ho
    exact cancelLoop_abort outcome pre o post hpre ho

/-- C2 witness: with error-shaped cancel responses every order of [1, 2, 3]
except a raising order 2 is reached up to the abort, and with only
error-shaped responses the whole list [4, 5] is attempted. -/
theorem cancel_loop_continue_witness :
    cancel_all_orders (fun o => if o = 2 then CancelOutcome.raises else CancelOutcome.errorShaped)
      (OpenOrdersResponse.orders [1, 2, 3]) = [1, 2] ∧
    cancel_all_orders (fun _ => CancelOutcome.errorShaped)
      (OpenOrdersResponse.orders [4, 5]) = [4, 5] := by
  constructor
  · exact (cancel_loop_continue
      (fun o => if o = 2 then CancelOutcome.raises else CancelOutcome.errorShaped)
      [] [1] [3] 2).2 (by decide) (by decide)
  · exact (cancel_loop_continue (fun _ => CancelOutcome.errorShaped) [4, 5] [] [] 0).1
      (by decide)

/-- C2 counterexample: a raised transport error while cancelling order 1
means order 2 of the listed orders [1, 2] is never attempted, against the
claim that a failed cancel of one order blocks no other order. -/
theorem cancel_loop_cex :
    cancel_all_orders (fun o => if o = 1 then CancelOutcome.raises else CancelOutcome.canceled)
      (OpenOrdersResponse.orders [1, 2]) = [1] ∧
    2 ∉ cancel_all_orders (fun o => if o = 1 then CancelOutcome.raises else CancelOutcome.canceled)
      (OpenOrdersResponse.orders [1, 2]) := by
  constructor
  · rfl
  · decide

/-- C9: the while-True loop of main never reaches an exited state: after
any number of cycles, whatever each cycle raised, the state is still
running, and a raised cycle error is handled by exactly a log, one
telegram alert and a sleep before the next cycle starts. -/
theorem main_loop_never_exits (E : Type) (outcomes : Nat → Except E Unit) (n : Nat) (e : E) :
    main_iter E outcomes n = LoopState.running n ∧
    main_iter E outcomes n ≠ LoopState.exited ∧
    main_step E (LoopState.running n) (Except.error e) =
      (LoopState.running (n + 1),
        [LoopEvent.logError e, LoopEvent.telegramAlert e, LoopEvent.sleep]) := by
  refine ⟨main_iter_running E outcomes n, ?_, rfl⟩
  rw [main_iter_running E outcomes n]
  intro h
  exact LoopState.noConfusion h

/-- C3 (amended): the signature is a deterministic function of the
canonical message in both variants, and changing the timestamp, the path
or the body alone changes the canonical message; but the method is
upper-cased before signing, so two methods differing only in letter case
give the same signature. -/
theorem sign_deterministic_message (secret ts ts2 m m2 p p2 b b2 : String) :
    (Gcbex.signMessage ts m p b = Gcbex.signMessage ts2 m2 p2 b2 →
      Gcbex.sign secret ts m p b = Gcbex.sign secret ts2 m2 p2 b2) ∧
    (upper m = upper m2 → Gcbex.sign secret ts m p b = Gcbex.sign secret ts m2 p b) ∧
    (ts ≠ ts2 → Gcbex.signMessage ts m p b ≠ Gcbex.signMessage ts2 m p b) ∧
    (p ≠ p2 → Gcbex.signMessage ts m p b ≠ Gcbex.signMessage ts m p2 b) ∧
    (b ≠ b2 → Gcbex.signMessage ts m p b ≠ Gcbex.signMessage ts m p b2) ∧
    (∀ params params2 : List (String × String),
      Mexc.query params = Mexc.query params2 →
      Mexc.sign secret params = Mexc.sign secret params2) := by
  refine ⟨?_, ?_, ?_, ?_, ?_, ?_⟩
  · intro h
    unfold Gcbex.sign
    rw [h]
  · intro h
    unfold Gcbex.sign Gcbex.signMessage
    rw [h]
  · intro hne h
    apply hne
    unfold Gcbex.signMessage at h
    exact str_append_right_cancel (str_append_right_cancel (str_append_right_cancel h))
  · intro hne h
    apply hne
    unfold Gcbex.signMessage at h
    exact str_append_left_cancel (str_append_right_cancel h)
  · intro hne h
    apply hne
    unfold Gcbex.signMessage at h
    exact str_append_left_cancel h
  · intro params params2 h
    unfold Mexc.sign
    rw [h]

/-- C3 witness: at concrete inputs, distinct timestamps give distinct
canonical messages, and upper-casing makes the methods get and GET give
the same signature. -/
theorem sign_deterministic_message_witness :
    Gcbex.signMessage "1" "GET" "/a" "" ≠ Gcbex.signMessage "2" "GET" "/a" "" ∧
    Gcbex.sign "sec" "1" "get" "/a" "" = Gcbex.sign "sec" "1" "GET" "/a" "" := by
  constructor
  · exact (sign_deterministic_message "sec" "1" "2" "GET" "GET" "/a" "/a" "" "").2.2.1
      (by decide)
  · exact (sign_deterministic_message "sec" "1" "1" "get" "GET" "/a" "/a" "" "").2.1
      (by decide)

/-- C3 counterexample: changing the single input method from get to GET
leaves the signature unchanged, because sign upper-cases the method before
building the canonical message. -/
theorem sign_method_case_cex :
    "get" ≠ "GET" ∧
    Gcbex.sign "secret" "1700000000000" "get" "/sapi/v2/openOrders" "" =
      Gcbex.sign "secret" "1700000000000" "GET" "/sapi/v2/openOrders" "" := by
  constructor
  · decide
  · unfold Gcbex.sign
    apply congrArg
    decide

/-- C8: the header variant signs the hex HMAC-SHA256 of exactly the
timestamp, upper-cased method, path and body concatenated in that order,
and the parameter variant signs the hex HMAC-SHA256 of exactly the
parameters sorted by key and joined as key=value pairs with ampersands;
neither mixes in parts of the other scheme. -/
theorem sign_canonical_schemes (secret ts m p b : String)
    (params : List (String × String)) :
    Gcbex.sign secret ts m p b =
      Crypto.hmacSha256Hex secret (ts ++ upper m ++ p ++ b) ∧
    ((params.map Prod.fst).Nodup →
      Mexc.sign secret params = Crypto.hmacSha256Hex secret (specSortedQuery params)) := by
  constructor
  · rfl
  · intro h
    unfold Mexc.sign
    rw [query_eq_specSortedQuery params h]

/-- C8 witness: the parameter variant at two concrete parameters signs
the sorted, ampersand-joined query string. -/
theorem sign_canonical_schemes_witness :
    Mexc.sign "sec" [("timestamp", "1"), ("symbol", "X")] =
      Crypto.hmacSha256Hex "sec" "symbol=X&timestamp=1" := by
  have h := (sign_canonical_schemes "sec" "" "" "" ""
      [("timestamp", "1"), ("symbol", "X")]).2 (by decide)
  rw [h]
  apply congrArg
  decide

/-- C10: in the open-orders listing request of cancel_all_orders the
signature covers only the timestamp, GET and the bare path, so two runs
differing only in the configured symbol produce the same signature, while
the URLs actually sent differ. -/
theorem listing_signature_ignores_symbol (secret ts base sym sym2 : String) :
    (Gcbex.listing_request secret ts base sym).2 =
      (Gcbex.listing_request secret ts base sym2).2 ∧
    (Gcbex.listing_request secret ts base sym).2 =
      Gcbex.sign secret ts "GET" "/sapi/v2/openOrders" "" ∧
    (sym ≠ sym2 →
      (Gcbex.listing_request secret ts base sym).1 ≠
        (Gcbex.listing_request secret ts base sym2).1) := by
  refine ⟨rfl, rfl, ?_⟩
  intro hne h
  apply hne
  have h2 : base ++ "/sapi/v2/openOrders" ++ "?" ++ ("symbol=" ++ sym) =
      base ++ "/sapi/v2/openOrders" ++ "?" ++ ("symbol=" ++ sym2) := h
  exact str_append_left_cancel (str_append_left_cancel h2)

/-- C10 witness: at concrete configurations differing only in the symbol,
the listing URLs differ while the signatures coincide. -/
theorem listing_signature_ignores_symbol_witness :
    (Gcbex.listing_request "sec" "1" "https://api" "BTCUSDT").1 ≠
      (Gcbex.listing_request "sec" "1" "https://api" "ETHUSDT").1 ∧
    (Gcbex.listing_request "sec" "1" "https://api" "BTCUSDT").2 =
      (Gcbex.listing_request "sec" "1" "https://api" "ETHUSDT").2 := by
  constructor
  · exact (listing_signature_ignores_symbol "sec" "1" "https://api" "BTCUSDT" "ETHUSDT").2.2
      (by decide)
  · exact (listing_signature_ignores_symbol "sec" "1" "https://api" "BTCUSDT" "ETHUSDT").1
